import Mathlib

/-
Verification of the reminder-bot scheduling core (src/main.py, src/database.py,
src/config.py, src/utils.py) against its natural-language specification.

Shallow embedding conventions:
  * Absolute instants are integer epoch seconds in the fixed server timezone.
    The python code stores `datetime.timestamp()` in sqlite and rebuilds the
    same instant with `parse_timestamp`, so instants compare exactly as their
    integer timestamps.
  * The sqlite tables are lists of rows; a SELECT with a WHERE clause is a
    list filter, an UPDATE by id is a map, an INSERT is an append with the
    autoincrement id passed explicitly.
  * Fallible externals (the send call of the telegram bot) are an environment
    input: a function from reminder id to a success flag for this tick.
  * sqlite3.Error paths (connection failures) are outside the model; the
    modelled branches are the ones reachable without a database fault.
-/

namespace AiReminder

/-- config.py: OPTIMAL_TASKS_DELTA = timedelta(minutes=30), in seconds. -/
def OPTIMAL_TASKS_DELTA : Int := 1800

/-- Row of the tags table (database.py): id, user_id, name.  The time window
columns start_time and end_time are not consulted by any modelled operation
and are omitted. -/
structure Tag where
  id : Nat
  user_id : Nat
  name : String
deriving DecidableEq

/-- A value stored in the tag_id column of pending_reminders and reminders.
sqlite columns are dynamically typed: the staging path of main.py
handle_message writes the tag NAME string (the key of the LLM response
dict) into tag_id, while the tags table key is an integer, so both shapes
can occur in the column; a sqlite comparison between an INTEGER and a TEXT
value is always false, which the derived equality reproduces. -/
inductive TagRef where
  | intId (id : Nat)
  | nameStr (name : String)
deriving DecidableEq

/-- Row of the reminders table (database.py): is_completed defaults to false,
tag_id is nullable and dynamically typed. -/
structure Reminder where
  id : Nat
  user_id : Nat
  text : String
  tag_id : Option TagRef
  due_time : Int
  is_completed : Bool
deriving DecidableEq

/-- Row of the pending_reminders table (database.py), the staging store;
tag_id is nullable and dynamically typed. -/
structure PendingReminder where
  id : Nat
  user_id : Nat
  text : String
  tag_id : Option TagRef
  due_time : Int
deriving DecidableEq

/-- The persistent store: the three tables the modelled operations touch. -/
structure Db where
  tags : List Tag
  reminders : List Reminder
  pending_reminders : List PendingReminder
deriving DecidableEq

/-- database.py get_user_tags: SELECT * FROM tags WHERE user_id = ?. -/
def get_user_tags (db : Db) (user_id : Nat) : List Tag :=
  db.tags.filter (fun t => t.user_id == user_id)

/-- database.py list_reminders_by_tag: SELECT * FROM reminders WHERE
user_id=? and tag_id=?, bound with the INTEGER tags.id.  A NULL tag_id
never equals anything in SQL, and a TEXT tag_id (the shape the staging
path writes) never equals an INTEGER parameter, hence the comparison
against some (TagRef.intId tag_id). -/
def list_reminders_by_tag (db : Db) (user_id : Nat) (tag_id : Nat) : List Reminder :=
  db.reminders.filter (fun r =>
    r.user_id == user_id && r.tag_id == some (TagRef.intId tag_id))

/-- python list.sort() on the timestamp list: ascending sort.  On integers
every ascending sort agrees with the stable one, so insertion sort is an
exact model. -/
def sortInts (l : List Int) : List Int :=
  List.insertionSort (fun a b => a ≤ b) l

/-- main.py select_nearest_time_for_tag, inner loop: for i in
range(len(ts) - 1): skip the pair while ts[i] <= now; at the first remaining
pair with ts[i+1] - ts[i] > OPTIMAL_TASKS_DELTA return
ts[i] + OPTIMAL_TASKS_DELTA; fall through to none. -/
def scanPairs (now : Int) : List Int → Option Int
  | t1 :: t2 :: rest =>
      if t1 ≤ now then scanPairs now (t2 :: rest)
      else if OPTIMAL_TASKS_DELTA < t2 - t1 then some (t1 + OPTIMAL_TASKS_DELTA)
      else scanPairs now (t2 :: rest)
  | _ => none

/-- main.py select_nearest_time_for_tag, outer loop over the tags of the
user: each tag whose name matches runs the inner scan; a hit returns from
the function, otherwise the loop keeps going. -/
def selectLoop (db : Db) (user_id : Nat) (tag_name : String) (now : Int) :
    List Tag → Option Int
  | [] => none
  | tag :: rest =>
      if tag.name == tag_name then
        match scanPairs now (sortInts
            ((list_reminders_by_tag db user_id tag.id).map (fun r => r.due_time))) with
        | some t => some t
        | none => selectLoop db user_id tag_name now rest
      else selectLoop db user_id tag_name now rest

/-- main.py select_nearest_time_for_tag: the loop result, or the default
placement now + OPTIMAL_TASKS_DELTA when the loop falls through. -/
def select_nearest_time_for_tag (db : Db) (user_id : Nat) (tag_name : String)
    (now : Int) : Int :=
  match selectLoop db user_id tag_name now (get_user_tags db user_id) with
  | some t => t
  | none => now + OPTIMAL_TASKS_DELTA

lemma scanPairs_eq_find (now : Int) (ts : List Int) :
    scanPairs now ts =
      ((ts.zip ts.tail).find? (fun p =>
          decide (now < p.1) && decide (OPTIMAL_TASKS_DELTA < p.2 - p.1))).map
        (fun p => p.1 + OPTIMAL_TASKS_DELTA) := by
  induction ts with
  | nil => rfl
  | cons t1 rest ih =>
    cases rest with
    | nil => rfl
    | cons t2 rest2 =>
      have hzip : (t1 :: t2 :: rest2).zip (t1 :: t2 :: rest2).tail
          = (t1, t2) :: ((t2 :: rest2).zip (t2 :: rest2).tail) := rfl
      rw [hzip]
      by_cases h1 : t1 ≤ now
      · have hp : (decide (now < t1) && decide (OPTIMAL_TASKS_DELTA < t2 - t1)) = false := by
          simp [not_lt.mpr h1]
        simp only [scanPairs, if_pos h1, List.find?, hp, ih]
      · by_cases h2 : OPTIMAL_TASKS_DELTA < t2 - t1
        · have hp : (decide (now < t1) && decide (OPTIMAL_TASKS_DELTA < t2 - t1)) = true := by
            simp [not_le.mp h1, h2]
          simp only [scanPairs, if_neg h1, if_pos h2, List.find?, hp]
          rfl
        · have hp : (decide (now < t1) && decide (OPTIMAL_TASKS_DELTA < t2 - t1)) = false := by
            simp [h2]
          simp only [scanPairs, if_neg h1, if_neg h2, List.find?, hp, ih]

lemma selectLoop_none_of_no_match (db : Db) (user_id : Nat) (tag_name : String)
    (now : Int) (tags : List Tag) (h : ∀ t ∈ tags, t.name ≠ tag_name) :
    selectLoop db user_id tag_name now tags = none := by
  induction tags with
  | nil => rfl
  | cons tag rest ih =>
    have hb : (tag.name == tag_name) = false :=
      beq_eq_false_iff_ne.mpr (h tag (List.mem_cons_self _ _))
    simp only [selectLoop, hb, Bool.false_eq_true, if_false]
    exact ih (fun t ht => h t (List.mem_cons_of_mem _ ht))

lemma selectLoop_eq_scan (db : Db) (user_id : Nat) (tag_name : String)
    (now : Int) (tag : Tag) (hname : tag.name = tag_name) (tags : List Tag)
    (hmem : tag ∈ tags) (huniq : ∀ t ∈ tags, t.name = tag_name → t = tag) :
    selectLoop db user_id tag_name now tags =
      scanPairs now (sortInts
        ((list_reminders_by_tag db user_id tag.id).map (fun r => r.due_time))) := by
  induction tags with
  | nil => exact absurd hmem (List.not_mem_nil _)
  | cons t1 rest ih =>
    by_cases hn : t1.name = tag_name
    · have ht1 : t1 = tag := huniq t1 (List.mem_cons_self _ _) hn
      subst ht1
      have hb : (t1.name == tag_name) = true := beq_iff_eq.mpr hn
      simp only [selectLoop, hb, if_true]
      cases hscan : scanPairs now (sortInts
          ((list_reminders_by_tag db user_id t1.id).map (fun r => r.due_time))) with
      | some v => rfl
      | none =>
        by_cases hrest : t1 ∈ rest
        · exact (ih hrest (fun t ht h2 => huniq t (List.mem_cons_of_mem _ ht) h2)).trans hscan
        · exact selectLoop_none_of_no_match db user_id tag_name now rest
            (fun t ht heq => hrest ((huniq t (List.mem_cons_of_mem _ ht) heq) ▸ ht))
    · have hb : (t1.name == tag_name) = false := beq_eq_false_iff_ne.mpr hn
      have hmem2 : tag ∈ rest := by
        cases List.mem_cons.mp hmem with
        | inl h => exact absurd (h ▸ hname) hn
        | inr h => exact h
      simp only [selectLoop, hb, Bool.false_eq_true, if_false]
      exact ih hmem2 (fun t ht h2 => huniq t (List.mem_cons_of_mem _ ht) h2)

/-- C1: for a user and a tag name resolving to one of the tags of the user,
select_nearest_time_for_tag sorts the due instants of the reminders stored
under that tag ascending, skips every adjacent pair whose earlier member is
not strictly after now, and for the first remaining adjacent pair whose gap
strictly exceeds OPTIMAL_TASKS_DELTA (30 minutes) returns the earlier
instant plus OPTIMAL_TASKS_DELTA; when no such pair exists it returns
now + OPTIMAL_TASKS_DELTA.  The first such pair is expressed by find? over
the adjacent pairs of the sorted list. -/
theorem selectNearestTimeForTag_first_gap (db : Db) (user_id : Nat)
    (tag_name : String) (now : Int) (tag : Tag)
    (htag : tag ∈ get_user_tags db user_id) (hname : tag.name = tag_name)
    (huniq : ∀ t ∈ get_user_tags db user_id, t.name = tag_name → t = tag) :
    select_nearest_time_for_tag db user_id tag_name now =
      (match ((sortInts ((list_reminders_by_tag db user_id tag.id).map
                (fun r => r.due_time))).zip
              (sortInts ((list_reminders_by_tag db user_id tag.id).map
                (fun r => r.due_time))).tail).find?
              (fun p => decide (now < p.1) && decide (OPTIMAL_TASKS_DELTA < p.2 - p.1)) with
       | some p => p.1 + OPTIMAL_TASKS_DELTA
       | none => now + OPTIMAL_TASKS_DELTA) := by
  unfold select_nearest_time_for_tag
  rw [selectLoop_eq_scan db user_id tag_name now tag hname _ htag huniq,
    scanPairs_eq_find]
  cases ((sortInts ((list_reminders_by_tag db user_id tag.id).map
      (fun r => r.due_time))).zip
      (sortInts ((list_reminders_by_tag db user_id tag.id).map
        (fun r => r.due_time))).tail).find?
      (fun p => decide (now < p.1) && decide (OPTIMAL_TASKS_DELTA < p.2 - p.1)) with
  | some p => rfl
  | none => rfl

lemma scanPairs_some_gt (now : Int) (ts : List Int) (v : Int)
    (h : scanPairs now ts = some v) : now + OPTIMAL_TASKS_DELTA < v := by
  induction ts with
  | nil => exact absurd h (by simp [scanPairs])
  | cons t1 rest ih =>
    cases rest with
    | nil => exact absurd h (by simp [scanPairs])
    | cons t2 rest2 =>
      by_cases h1 : t1 ≤ now
      · rw [scanPairs, if_pos h1] at h
        exact ih h
      · by_cases h2 : OPTIMAL_TASKS_DELTA < t2 - t1
        · rw [scanPairs, if_neg h1, if_pos h2, Option.some_inj] at h
          have : now < t1 := not_le.mp h1
          omega
        · rw [scanPairs, if_neg h1, if_neg h2] at h
          exact ih h

lemma selectLoop_some_gt (db : Db) (user_id : Nat) (tag_name : String)
    (now : Int) (tags : List Tag) (v : Int)
    (h : selectLoop db user_id tag_name now tags = some v) :
    now + OPTIMAL_TASKS_DELTA < v := by
  induction tags with
  | nil => exact absurd h (by simp [selectLoop])
  | cons tag rest ih =>
    by_cases hn : (tag.name == tag_name) = true
    · rw [selectLoop, if_pos hn] at h
      cases hscan : scanPairs now (sortInts
          ((list_reminders_by_tag db user_id tag.id).map (fun r => r.due_time))) with
      | some w =>
        rw [hscan, Option.some_inj] at h
        exact h ▸ scanPairs_some_gt now _ w hscan
      | none =>
        rw [hscan] at h
        exact ih h
    · rw [selectLoop, if_neg hn] at h
      exact ih h

lemma scanPairs_none_of_all_le (now : Int) (ts : List Int)
    (h : ∀ t ∈ ts, t ≤ now) : scanPairs now ts = none := by
  induction ts with
  | nil => rfl
  | cons t1 rest ih =>
    cases rest with
    | nil => rfl
    | cons t2 rest2 =>
      rw [scanPairs, if_pos (h t1 (List.mem_cons_self _ _))]
      exact ih (fun t ht => h t (List.mem_cons_of_mem _ ht))

lemma selectLoop_none_of_all_past (db : Db) (user_id : Nat) (tag_name : String)
    (now : Int) (tags : List Tag)
    (h : ∀ tag ∈ tags, tag.name = tag_name →
      ∀ r ∈ list_reminders_by_tag db user_id tag.id, r.due_time ≤ now) :
    selectLoop db user_id tag_name now tags = none := by
  induction tags with
  | nil => rfl
  | cons tag rest ih =>
    by_cases hn : (tag.name == tag_name) = true
    · rw [selectLoop, if_pos hn]
      have hscan : scanPairs now (sortInts
          ((list_reminders_by_tag db user_id tag.id).map (fun r => r.due_time))) = none := by
        apply scanPairs_none_of_all_le
        intro t ht
        have ht2 : t ∈ (list_reminders_by_tag db user_id tag.id).map (fun r => r.due_time) :=
          (List.perm_insertionSort _ _).mem_iff.mp ht
        obtain ⟨r, hr, hrt⟩ := List.mem_map.mp ht2
        exact hrt ▸ h tag (List.mem_cons_self _ _) (beq_iff_eq.mp hn) r hr
      rw [hscan]
      exact ih (fun t ht heq => h t (List.mem_cons_of_mem _ ht) heq)
    · rw [selectLoop, if_neg hn]
      exact ih (fun t ht heq => h t (List.mem_cons_of_mem _ ht) heq)

/-- C2: the instant returned by select_nearest_time_for_tag is strictly
greater than now, for every store, user and tag name; moreover when every
reminder under every matching tag is due at or before now (no future
reminders, which also covers an empty list), the result is exactly
now + OPTIMAL_TASKS_DELTA, hence lies in the closed interval from now to
now + OPTIMAL_TASKS_DELTA and is strictly greater than now. -/
theorem selectNearestTimeForTag_future (db : Db) (user_id : Nat)
    (tag_name : String) (now : Int) :
    now < select_nearest_time_for_tag db user_id tag_name now ∧
    ((∀ tag ∈ get_user_tags db user_id, tag.name = tag_name →
        ∀ r ∈ list_reminders_by_tag db user_id tag.id, r.due_time ≤ now) →
      select_nearest_time_for_tag db user_id tag_name now = now + OPTIMAL_TASKS_DELTA ∧
      now ≤ select_nearest_time_for_tag db user_id tag_name now ∧
      select_nearest_time_for_tag db user_id tag_name now ≤ now + OPTIMAL_TASKS_DELTA) := by
  constructor
  · unfold select_nearest_time_for_tag
    cases hsel : selectLoop db user_id tag_name now (get_user_tags db user_id) with
    | some v =>
      have hgt := selectLoop_some_gt db user_id tag_name now _ v hsel
      have hd : (0:Int) < OPTIMAL_TASKS_DELTA := by decide
      show now < v
      omega
    | none =>
      have hd : (0:Int) < OPTIMAL_TASKS_DELTA := by decide
      show now < now + OPTIMAL_TASKS_DELTA
      omega
  · intro hall
    have hnone := selectLoop_none_of_all_past db user_id tag_name now _ hall
    unfold select_nearest_time_for_tag
    rw [hnone]
    have hd : (0:Int) < OPTIMAL_TASKS_DELTA := by decide
    refine ⟨rfl, ?_, ?_⟩
    · show now ≤ now + OPTIMAL_TASKS_DELTA
      omega
    · show now + OPTIMAL_TASKS_DELTA ≤ now + OPTIMAL_TASKS_DELTA
      omega

/-- C2 witness: the theorem applied to a concrete store with a single Work
tag whose only reminder is in the past. -/
theorem selectNearestTimeForTag_future_witness :
    ((28800:Int) < select_nearest_time_for_tag
        ⟨[⟨1, 7, "Work"⟩], [⟨21, 7, "t", some (TagRef.intId 1), 10000, false⟩], []⟩ 7 "Work" 28800) ∧
    select_nearest_time_for_tag
        ⟨[⟨1, 7, "Work"⟩], [⟨21, 7, "t", some (TagRef.intId 1), 10000, false⟩], []⟩ 7 "Work" 28800 =
      28800 + OPTIMAL_TASKS_DELTA := by
  have h := selectNearestTimeForTag_future
    ⟨[⟨1, 7, "Work"⟩], [⟨21, 7, "t", some (TagRef.intId 1), 10000, false⟩], []⟩ 7 "Work" 28800
  exact ⟨h.1, (h.2 (by decide)).1⟩

/-- C10: for a tag name matching none of the tags of the user (also a user
with no tags), select_nearest_time_for_tag does not fail and returns exactly
the default placement now + OPTIMAL_TASKS_DELTA. -/
theorem selectNearestTimeForTag_unmatched_tag (db : Db) (user_id : Nat)
    (tag_name : String) (now : Int)
    (h : ∀ tag ∈ get_user_tags db user_id, tag.name ≠ tag_name) :
    select_nearest_time_for_tag db user_id tag_name now = now + OPTIMAL_TASKS_DELTA := by
  unfold select_nearest_time_for_tag
  rw [selectLoop_none_of_no_match db user_id tag_name now _ h]

/-- C10 witness: the theorem applied to a store whose only tag of the user
has a different name, and to a user with no tags at all. -/
theorem selectNearestTimeForTag_unmatched_tag_witness :
    select_nearest_time_for_tag ⟨[⟨1, 7, "Home"⟩], [], []⟩ 7 "Work" 28800 =
      28800 + OPTIMAL_TASKS_DELTA ∧
    select_nearest_time_for_tag ⟨[], [], []⟩ 9 "Work" 28800 =
      28800 + OPTIMAL_TASKS_DELTA :=
  ⟨selectNearestTimeForTag_unmatched_tag ⟨[⟨1, 7, "Home"⟩], [], []⟩ 7 "Work" 28800 (by decide),
   selectNearestTimeForTag_unmatched_tag ⟨[], [], []⟩ 9 "Work" 28800 (by decide)⟩

/-- C1 witness: the theorem applied to a concrete store (tag Work with due
instants 09:00, 09:10, 12:00 as seconds of the day, now 08:50), together
with an evaluation showing the computed value is the first wide gap start
plus the spacing. -/
theorem selectNearestTimeForTag_first_gap_witness :
    (⟨1, 7, "Work"⟩ : Tag) ∈ get_user_tags
        ⟨[⟨1, 7, "Work"⟩],
         [⟨21, 7, "a", some (TagRef.intId 1), 32400, false⟩, ⟨22, 7, "b", some (TagRef.intId 1), 33000, false⟩,
          ⟨23, 7, "c", some (TagRef.intId 1), 43200, false⟩], []⟩ 7 ∧
    select_nearest_time_for_tag
        ⟨[⟨1, 7, "Work"⟩],
         [⟨21, 7, "a", some (TagRef.intId 1), 32400, false⟩, ⟨22, 7, "b", some (TagRef.intId 1), 33000, false⟩,
          ⟨23, 7, "c", some (TagRef.intId 1), 43200, false⟩], []⟩ 7 "Work" 31800 = 34800 := by
  constructor
  · decide
  · have h := selectNearestTimeForTag_first_gap
      ⟨[⟨1, 7, "Work"⟩],
       [⟨21, 7, "a", some (TagRef.intId 1), 32400, false⟩, ⟨22, 7, "b", some (TagRef.intId 1), 33000, false⟩,
        ⟨23, 7, "c", some (TagRef.intId 1), 43200, false⟩], []⟩ 7 "Work" 31800 ⟨1, 7, "Work"⟩
      (by decide) (by decide) (by decide)
    rw [h]
    decide

/-- database.py get_due_reminders: SELECT * FROM reminders WHERE
is_completed = FALSE AND due_time <= ?. -/
def get_due_reminders (db : Db) (dt : Int) : List Reminder :=
  db.reminders.filter (fun r => !r.is_completed && decide (r.due_time ≤ dt))

/-- database.py create_unconfirmed_reminder: INSERT INTO pending_reminders;
the autoincrement id is passed explicitly.  The staging caller (main.py
handle_message, the loop over the planned-tasks dict) passes the tag NAME
string as tag_id: create_unconfirmed_reminder(user_id, text, tag_id=tag,
due_time) with tag the dict key. -/
def create_unconfirmed_reminder (db : Db) (new_id : Nat) (user_id : Nat)
    (text : String) (due_time : Int) (tag_id : Option TagRef) : Db :=
  { db with pending_reminders := db.pending_reminders ++
      [{ id := new_id, user_id := user_id, text := text, tag_id := tag_id,
         due_time := due_time }] }

/-- database.py create_reminder: INSERT INTO reminders; is_completed takes
its sqlite default FALSE; the autoincrement id is passed explicitly. -/
def create_reminder (db : Db) (new_id : Nat) (user_id : Nat) (text : String)
    (tag_id : Option TagRef) (due_time : Int) : Db :=
  { db with reminders := db.reminders ++
      [{ id := new_id, user_id := user_id, text := text, tag_id := tag_id,
         due_time := due_time, is_completed := false }] }

/-- database.py delete_unconfirmed_reminder: DELETE FROM pending_reminders
where id=?. -/
def delete_unconfirmed_reminder (db : Db) (task_id : Nat) : Db :=
  { db with pending_reminders :=
      db.pending_reminders.filter (fun r => !(r.id == task_id)) }

/-- database.py get_unconfirmed_reminder: SELECT then dict(row).  When no
row matches, fetchone() gives None and dict(None) raises a TypeError, which
is the error case here; a present row is returned as ok.  (The sqlite3.Error
branch that returns an empty dict is outside the model.) -/
def get_unconfirmed_reminder (db : Db) (task_id : Nat) : Except Unit PendingReminder :=
  match db.pending_reminders.find? (fun r => r.id == task_id) with
  | some row => Except.ok row
  | none => Except.error ()

/-- The user-visible outcome of the confirm_task handler in main.py. -/
inductive ConfirmOutcome where
  | confirmedNotice
  | notFoundNotice
  | genericErrorNotice
deriving DecidableEq

/-- main.py confirm_task, single-task branch: fetch the staged row, insert a
confirmed reminder owned by the tapping user (from_user) with the staged
text, tag and due time, then delete the staged row, and notify success.  The
handler guards the fetch with a check that would answer with the not-found
notice for an empty dict, but a missing row makes dict(None) raise a
TypeError inside get_unconfirmed_reminder, so control reaches the outer
except-handler instead, which answers with the generic error notice and
leaves the store untouched. -/
def confirm_task (db : Db) (from_user : Nat) (new_id : Nat) (task_id : Nat) :
    Db × ConfirmOutcome :=
  match get_unconfirmed_reminder db task_id with
  | Except.error _ => (db, ConfirmOutcome.genericErrorNotice)
  | Except.ok row =>
      let db1 := create_reminder db new_id from_user row.text row.tag_id row.due_time
      let db2 := delete_unconfirmed_reminder db1 task_id
      (db2, ConfirmOutcome.confirmedNotice)

/-- C5: get_due_reminders returns exactly the stored reminders whose
completion flag is false and whose due instant is at most asOf; in
particular it never returns a completed reminder nor one strictly after
asOf. -/
theorem get_due_reminders_spec (db : Db) (asOf : Int) (r : Reminder) :
    (r ∈ get_due_reminders db asOf ↔
      r ∈ db.reminders ∧ r.is_completed = false ∧ r.due_time ≤ asOf) ∧
    (r ∈ get_due_reminders db asOf → ¬ (r.is_completed = true) ∧ ¬ (asOf < r.due_time)) := by
  have hiff : r ∈ get_due_reminders db asOf ↔
      r ∈ db.reminders ∧ r.is_completed = false ∧ r.due_time ≤ asOf := by
    unfold get_due_reminders
    rw [List.mem_filter]
    constructor
    · rintro ⟨hmem, hcond⟩
      rw [Bool.and_eq_true, Bool.not_eq_true', decide_eq_true_eq] at hcond
      exact ⟨hmem, hcond.1, hcond.2⟩
    · rintro ⟨hmem, hflag, hdue⟩
      refine ⟨hmem, ?_⟩
      rw [Bool.and_eq_true, Bool.not_eq_true', decide_eq_true_eq]
      exact ⟨hflag, hdue⟩
  refine ⟨hiff, fun hmem => ?_⟩
  obtain ⟨-, hflag, hdue⟩ := hiff.mp hmem
  constructor
  · intro hc
    rw [hflag] at hc
    cases hc
  · omega

/-- Shared helper restating the C5 filter characterisation for use by the
dispatch-loop lemmas. -/
lemma mem_get_due_reminders (db : Db) (asOf : Int) (r : Reminder) :
    r ∈ get_due_reminders db asOf ↔
      r ∈ db.reminders ∧ r.is_completed = false ∧ r.due_time ≤ asOf := by
  unfold get_due_reminders
  rw [List.mem_filter]
  constructor
  · rintro ⟨hmem, hcond⟩
    rw [Bool.and_eq_true, Bool.not_eq_true', decide_eq_true_eq] at hcond
    exact ⟨hmem, hcond.1, hcond.2⟩
  · rintro ⟨hmem, hflag, hdue⟩
    refine ⟨hmem, ?_⟩
    rw [Bool.and_eq_true, Bool.not_eq_true', decide_eq_true_eq]
    exact ⟨hflag, hdue⟩

/-- C6: promoting a staged id that is no longer in the staging store leaves
the store unchanged (no confirmed reminder is created) and produces a
user-facing notice rather than a crash; however the notice is the generic
error text, not the dedicated not-found text, because the missing row makes
dict(None) raise a TypeError before the not-found check can run. -/
theorem confirm_task_missing_staged (db : Db) (from_user new_id task_id : Nat)
    (h : db.pending_reminders.find? (fun r => r.id == task_id) = none) :
    confirm_task db from_user new_id task_id = (db, ConfirmOutcome.genericErrorNotice) ∧
    (confirm_task db from_user new_id task_id).2 ≠ ConfirmOutcome.notFoundNotice := by
  have : confirm_task db from_user new_id task_id = (db, ConfirmOutcome.genericErrorNotice) := by
    unfold confirm_task get_unconfirmed_reminder
    rw [h]
  exact ⟨this, by rw [this]; simp⟩

/-- C6 witness: the theorem applied to a store whose staging table does not
contain the requested id. -/
theorem confirm_task_missing_staged_witness :
    confirm_task ⟨[], [], [⟨11, 7, "a", some (TagRef.intId 1), 32400⟩]⟩ 7 101 99 =
      (⟨[], [], [⟨11, 7, "a", some (TagRef.intId 1), 32400⟩]⟩, ConfirmOutcome.genericErrorNotice) :=
  (confirm_task_missing_staged ⟨[], [], [⟨11, 7, "a", some (TagRef.intId 1), 32400⟩]⟩ 7 101 99 (by decide)).1

/-- The concrete store of the C3 scenario, produced through the staging
path: user 7 owns tag Work (integer id 1) and three tasks are staged, but
not confirmed, under it with due times 09:00, 09:10 and 12:00 of the
current day (epoch seconds 32400, 33000, 43200).  As in main.py
handle_message, each staged row carries the tag NAME string in tag_id.
The confirmed reminders table is empty. -/
def c3Db : Db :=
  create_unconfirmed_reminder
    (create_unconfirmed_reminder
      (create_unconfirmed_reminder ⟨[⟨1, 7, "Work"⟩], [], []⟩
        11 7 "a" 32400 (some (TagRef.nameStr "Work")))
      12 7 "b" 33000 (some (TagRef.nameStr "Work")))
    13 7 "c" 43200 (some (TagRef.nameStr "Work"))

/-- C3 counterexample: with the three Work tasks still only staged, calling
select_nearest_time_for_tag at 08:00 (epoch second 28800) returns
now + 30 minutes = 30600, not 09:40 = 34800: the staged rows live in
pending_reminders and are invisible to list_reminders_by_tag. -/
theorem c3_staged_invisible_counterexample :
    select_nearest_time_for_tag c3Db 7 "Work" 28800 = 30600 ∧
    select_nearest_time_for_tag c3Db 7 "Work" 28800 ≠ 34800 := by
  constructor
  · decide
  · decide

/-- C3 amended: in the staged-Work-tasks scenario the call returns the
default now + 30 minutes, not 09:40 — before any confirmation, because
staged rows live in pending_reminders and are invisible to the confirmed
query, and still after all three tasks are promoted by confirm_task,
because the staging path stored the tag NAME string in tag_id while
select_nearest_time_for_tag joins on the INTEGER tag id, so the promoted
rows never match and 09:40 is never produced. -/
theorem c3_default_placement :
    select_nearest_time_for_tag c3Db 7 "Work" 28800 = 28800 + OPTIMAL_TASKS_DELTA ∧
    select_nearest_time_for_tag
      (confirm_task (confirm_task (confirm_task c3Db 7 101 11).1 7 102 12).1 7 103 13).1
      7 "Work" 28800 = 28800 + OPTIMAL_TASKS_DELTA ∧
    select_nearest_time_for_tag
      (confirm_task (confirm_task (confirm_task c3Db 7 101 11).1 7 102 12).1 7 103 13).1
      7 "Work" 28800 ≠ 34800 := by
  refine ⟨by decide, by decide, by decide⟩

/-- database.py mark_reminder_completed: UPDATE reminders SET
is_completed = TRUE WHERE id=?. -/
def mark_reminder_completed (db : Db) (task_id : Nat) : Db :=
  { db with reminders := db.reminders.map (fun r =>
      if r.id == task_id then { r with is_completed := true } else r) }

/-- Observable actions of one dispatch tick of main.py check_reminders:
the early-reminder anomaly alert to the admin chat, the missing-user log
line, a successful delivery send, the completion mark, and the logged
delivery failure. -/
inductive Event where
  | earlyAnomaly (id : Nat)
  | userMissingLog (user_id : Nat)
  | delivered (id : Nat)
  | completedMark (id : Nat)
  | sendFailureLogged (id : Nat)
deriving DecidableEq

/-- One reminder inside the per-user loop of check_reminders: the defensive
early check alerts and skips; otherwise the send is attempted (success is
the environment input sendOk, keyed by reminder id) and only a successful
send is followed by mark_reminder_completed; a failed send is logged by the
per-reminder except-handler and leaves the store untouched. -/
def processReminder (sendOk : Nat → Bool) (now : Int) (db : Db) (r : Reminder) :
    Db × List Event :=
  if now < r.due_time then (db, [Event.earlyAnomaly r.id])
  else if sendOk r.id then
    (mark_reminder_completed db r.id, [Event.delivered r.id, Event.completedMark r.id])
  else (db, [Event.sendFailureLogged r.id])

/-- The events processReminder emits for one reminder; they do not depend on
the store. -/
def evOne (sendOk : Nat → Bool) (now : Int) (r : Reminder) : List Event :=
  if now < r.due_time then [Event.earlyAnomaly r.id]
  else if sendOk r.id then [Event.delivered r.id, Event.completedMark r.id]
  else [Event.sendFailureLogged r.id]

/-- The inner loop of check_reminders over the reminders of one user,
sequential, threading the store. -/
def processUserReminders (sendOk : Nat → Bool) (now : Int) :
    Db → List Reminder → Db × List Event
  | db, [] => (db, [])
  | db, r :: rest =>
      let p := processReminder sendOk now db r
      let q := processUserReminders sendOk now p.1 rest
      (q.1, p.2 ++ q.2)

/-- One step of building the user_reminders dict of check_reminders: python
dicts keep insertion order, a new key is appended, an existing key gets the
reminder appended to its list. -/
def addToGroups (groups : List (Nat × List Reminder)) (r : Reminder) :
    List (Nat × List Reminder) :=
  if groups.any (fun g => g.1 == r.user_id) then
    groups.map (fun g => if g.1 == r.user_id then (g.1, g.2 ++ [r]) else g)
  else groups ++ [(r.user_id, [r])]

/-- The user_reminders grouping of check_reminders. -/
def groupByUser (batch : List Reminder) : List (Nat × List Reminder) :=
  batch.foldl addToGroups []

/-- The outer loop of check_reminders over the user groups: a user id absent
from the users table is logged and the whole group is skipped (continue);
otherwise the group is processed sequentially. -/
def processGroups (users : List Nat) (sendOk : Nat → Bool) (now : Int) :
    Db → List (Nat × List Reminder) → Db × List Event
  | db, [] => (db, [])
  | db, g :: rest =>
      if users.contains g.1 then
        let p := processUserReminders sendOk now db g.2
        let q := processGroups users sendOk now p.1 rest
        (q.1, p.2 ++ q.2)
      else
        let q := processGroups users sendOk now db rest
        (q.1, Event.userMissingLog g.1 :: q.2)

/-- The processing stage of one check_reminders tick applied to an arbitrary
due-query result batch.  Keeping the batch a parameter lets the defensive
early check be exercised: in the real system the query runs against a
database whose clock context may differ from the dt captured by the tick
(clock skew or query-boundary artifacts), which is exactly the situation the
guard defends against. -/
def run_reminder_batch (users : List Nat) (sendOk : Nat → Bool) (now : Int)
    (db : Db) (batch : List Reminder) : Db × List Event :=
  processGroups users sendOk now db (groupByUser batch)

/-- main.py check_reminders: one tick at instant now; the batch is the
get_due_reminders query result at the same instant. -/
def check_reminders (users : List Nat) (sendOk : Nat → Bool) (db : Db)
    (now : Int) : Db × List Event :=
  run_reminder_batch users sendOk now db (get_due_reminders db now)

lemma processReminder_snd (sendOk : Nat → Bool) (now : Int) (db : Db) (r : Reminder) :
    (processReminder sendOk now db r).2 = evOne sendOk now r := by
  unfold processReminder evOne
  split
  · rfl
  · split <;> rfl

lemma evOne_completedMark (sendOk : Nat → Bool) (now : Int) (r : Reminder) (i : Nat) :
    Event.completedMark i ∈ evOne sendOk now r ↔
      ¬ now < r.due_time ∧ sendOk r.id = true ∧ i = r.id := by
  unfold evOne
  split
  · rename_i h1
    simp [h1]
  · rename_i h1
    split
    · rename_i h2
      simp [h1, h2]
    · rename_i h2
      simp [h1, h2]

lemma evOne_delivered (sendOk : Nat → Bool) (now : Int) (r : Reminder) (i : Nat) :
    Event.delivered i ∈ evOne sendOk now r ↔
      ¬ now < r.due_time ∧ sendOk r.id = true ∧ i = r.id := by
  unfold evOne
  split
  · rename_i h1
    simp [h1]
  · rename_i h1
    split
    · rename_i h2
      simp [h1, h2]
    · rename_i h2
      simp [h1, h2]

lemma evOne_sendFailureLogged (sendOk : Nat → Bool) (now : Int) (r : Reminder) (i : Nat) :
    Event.sendFailureLogged i ∈ evOne sendOk now r ↔
      ¬ now < r.due_time ∧ sendOk r.id = false ∧ i = r.id := by
  unfold evOne
  split
  · rename_i h1
    simp [h1]
  · rename_i h1
    split
    · rename_i h2
      simp [h1, h2]
    · rename_i h2
      simp [h1, h2, Bool.eq_false_iff, ne_eq]

lemma evOne_earlyAnomaly (sendOk : Nat → Bool) (now : Int) (r : Reminder) (i : Nat) :
    Event.earlyAnomaly i ∈ evOne sendOk now r ↔ now < r.due_time ∧ i = r.id := by
  unfold evOne
  split
  · rename_i h1
    simp [h1]
  · rename_i h1
    split <;> simp [h1]

lemma mem_events_processUserReminders (sendOk : Nat → Bool) (now : Int) (e : Event)
    (rs : List Reminder) : ∀ db : Db,
    (e ∈ (processUserReminders sendOk now db rs).2 ↔ ∃ r ∈ rs, e ∈ evOne sendOk now r) := by
  induction rs with
  | nil =>
    intro db
    simp [processUserReminders]
  | cons r rest ih =>
    intro db
    have hstep : (processUserReminders sendOk now db (r :: rest)).2 =
        (processReminder sendOk now db r).2 ++
        (processUserReminders sendOk now (processReminder sendOk now db r).1 rest).2 := rfl
    rw [hstep, List.mem_append, processReminder_snd, ih, List.exists_mem_cons_iff]

lemma mem_events_processGroups (users : List Nat) (sendOk : Nat → Bool) (now : Int)
    (e : Event) (gs : List (Nat × List Reminder)) : ∀ db : Db,
    (e ∈ (processGroups users sendOk now db gs).2 ↔
      ∃ g ∈ gs, ((users.contains g.1 = true ∧ ∃ r ∈ g.2, e ∈ evOne sendOk now r) ∨
        (users.contains g.1 = false ∧ e = Event.userMissingLog g.1))) := by
  induction gs with
  | nil =>
    intro db
    simp [processGroups]
  | cons g rest ih =>
    intro db
    by_cases hc : users.contains g.1 = true
    · have hstep : (processGroups users sendOk now db (g :: rest)).2 =
          (processUserReminders sendOk now db g.2).2 ++
          (processGroups users sendOk now (processUserReminders sendOk now db g.2).1 rest).2 := by
        simp only [processGroups]
        rw [if_pos hc]
      have hcm : g.1 ∈ users := by simpa using hc
      rw [hstep, List.mem_append, mem_events_processUserReminders, ih,
        List.exists_mem_cons_iff]
      simp [hcm]
    · have hstep : (processGroups users sendOk now db (g :: rest)).2 =
          Event.userMissingLog g.1 :: (processGroups users sendOk now db rest).2 := by
        simp only [processGroups]
        rw [if_neg hc]
      have hcm : g.1 ∉ users := by simpa using hc
      rw [hstep, List.mem_cons, ih, List.exists_mem_cons_iff]
      simp [hcm]

lemma addToGroups_mem (acc : List (Nat × List Reminder)) (x r : Reminder) :
    (∃ g ∈ addToGroups acc x, r ∈ g.2) ↔ (∃ g ∈ acc, r ∈ g.2) ∨ r = x := by
  unfold addToGroups
  by_cases hc : (acc.any fun g => g.1 == x.user_id) = true
  · rw [if_pos hc]
    constructor
    · rintro ⟨g, hg, hr⟩
      obtain ⟨g0, hg0, rfl⟩ := List.mem_map.mp hg
      by_cases hk : (g0.1 == x.user_id) = true
      · rw [if_pos hk] at hr
        rcases List.mem_append.mp hr with h | h
        · exact Or.inl ⟨g0, hg0, h⟩
        · exact Or.inr (List.mem_singleton.mp h)
      · rw [if_neg hk] at hr
        exact Or.inl ⟨g0, hg0, hr⟩
    · rintro (⟨g0, hg0, hr⟩ | rfl)
      · refine ⟨_, List.mem_map_of_mem _ hg0, ?_⟩
        show r ∈ (if (g0.1 == x.user_id) = true then (g0.1, g0.2 ++ [x]) else g0).2
        by_cases hk : (g0.1 == x.user_id) = true
        · rw [if_pos hk]
          exact List.mem_append_left _ hr
        · rw [if_neg hk]
          exact hr
      · obtain ⟨g0, hg0, hk⟩ := List.any_eq_true.mp hc
        refine ⟨_, List.mem_map_of_mem _ hg0, ?_⟩
        show r ∈ (if (g0.1 == r.user_id) = true then (g0.1, g0.2 ++ [r]) else g0).2
        rw [if_pos hk]
        exact List.mem_append_right _ (List.mem_singleton.mpr rfl)
  · rw [if_neg hc]
    constructor
    · rintro ⟨g, hg, hr⟩
      rcases List.mem_append.mp hg with h | h
      · exact Or.inl ⟨g, h, hr⟩
      · rw [List.mem_singleton.mp h] at hr
        exact Or.inr (List.mem_singleton.mp hr)
    · rintro (⟨g, hg, hr⟩ | rfl)
      · exact ⟨g, List.mem_append_left _ hg, hr⟩
      · exact ⟨(r.user_id, [r]), List.mem_append_right _ (List.mem_singleton.mpr rfl),
          List.mem_singleton.mpr rfl⟩

lemma foldl_addToGroups_mem (r : Reminder) (batch : List Reminder) :
    ∀ acc : List (Nat × List Reminder),
    ((∃ g ∈ batch.foldl addToGroups acc, r ∈ g.2) ↔
      (∃ g ∈ acc, r ∈ g.2) ∨ r ∈ batch) := by
  induction batch with
  | nil =>
    intro acc
    simp
  | cons x rest ih =>
    intro acc
    rw [List.foldl_cons, ih, addToGroups_mem, List.mem_cons]
    exact or_assoc

lemma groupByUser_mem (batch : List Reminder) (r : Reminder) :
    (∃ g ∈ groupByUser batch, r ∈ g.2) ↔ r ∈ batch := by
  unfold groupByUser
  rw [foldl_addToGroups_mem]
  simp

lemma addToGroups_key (acc : List (Nat × List Reminder)) (x : Reminder)
    (h : ∀ g ∈ acc, ∀ r ∈ g.2, r.user_id = g.1) :
    ∀ g ∈ addToGroups acc x, ∀ r ∈ g.2, r.user_id = g.1 := by
  unfold addToGroups
  by_cases hc : (acc.any fun g => g.1 == x.user_id) = true
  · rw [if_pos hc]
    intro g hg r hr
    obtain ⟨g0, hg0, rfl⟩ := List.mem_map.mp hg
    by_cases hk : (g0.1 == x.user_id) = true
    · rw [if_pos hk] at hr ⊢
      rcases List.mem_append.mp hr with h2 | h2
      · exact h g0 hg0 r h2
      · rw [List.mem_singleton.mp h2]
        exact (beq_iff_eq.mp hk).symm
    · rw [if_neg hk] at hr ⊢
      exact h g0 hg0 r hr
  · rw [if_neg hc]
    intro g hg r hr
    rcases List.mem_append.mp hg with h2 | h2
    · exact h g h2 r hr
    · rw [List.mem_singleton.mp h2] at hr ⊢
      rw [List.mem_singleton.mp hr]

lemma groupByUser_key (batch : List Reminder) :
    ∀ g ∈ groupByUser batch, ∀ r ∈ g.2, r.user_id = g.1 := by
  unfold groupByUser
  have haux : ∀ (bs : List Reminder) (acc : List (Nat × List Reminder)),
      (∀ g ∈ acc, ∀ r ∈ g.2, r.user_id = g.1) →
      ∀ g ∈ bs.foldl addToGroups acc, ∀ r ∈ g.2, r.user_id = g.1 := by
    intro bs
    induction bs with
    | nil =>
      intro acc h
      simpa using h
    | cons x rest ih =>
      intro acc h
      rw [List.foldl_cons]
      exact ih _ (addToGroups_key acc x h)
  exact haux batch [] (by simp)

lemma mem_run_batch_events (users : List Nat) (sendOk : Nat → Bool) (now : Int)
    (db : Db) (batch : List Reminder) (e : Event)
    (he : ∀ u, e ≠ Event.userMissingLog u) :
    e ∈ (run_reminder_batch users sendOk now db batch).2 ↔
      ∃ r ∈ batch, users.contains r.user_id = true ∧ e ∈ evOne sendOk now r := by
  unfold run_reminder_batch
  rw [mem_events_processGroups]
  constructor
  · rintro ⟨g, hg, hcase⟩
    rcases hcase with ⟨hc, r, hr, her⟩ | ⟨-, habs⟩
    · have hkey := groupByUser_key batch g hg r hr
      have hbatch : r ∈ batch := (groupByUser_mem batch r).mp ⟨g, hg, hr⟩
      refine ⟨r, hbatch, ?_, her⟩
      rw [hkey]
      exact hc
    · exact absurd habs (he g.1)
  · rintro ⟨r, hr, hc, her⟩
    obtain ⟨g, hg, hrg⟩ := (groupByUser_mem batch r).mpr hr
    have hkey := groupByUser_key batch g hg r hrg
    exact ⟨g, hg, Or.inl ⟨hkey ▸ hc, r, hrg, her⟩⟩

lemma mark_preserves_other (db : Db) (j : Nat) (x : Reminder)
    (hx : x ∈ db.reminders) (hne : x.id ≠ j) :
    x ∈ (mark_reminder_completed db j).reminders := by
  unfold mark_reminder_completed
  have hb : (x.id == j) = false := beq_eq_false_iff_ne.mpr hne
  have hmem := List.mem_map_of_mem
    (f := fun r => if r.id == j then { r with is_completed := true } else r) hx
  simpa [hb] using hmem

lemma processUserReminders_preserves (sendOk : Nat → Bool) (now : Int) (x : Reminder)
    (rs : List Reminder) : ∀ db : Db, x ∈ db.reminders →
    (∀ r ∈ rs, r.id = x.id → (now < r.due_time ∨ sendOk r.id = false)) →
    x ∈ (processUserReminders sendOk now db rs).1.reminders := by
  induction rs with
  | nil =>
    intro db hx _
    exact hx
  | cons r rest ih =>
    intro db hx h
    show x ∈ (processUserReminders sendOk now (processReminder sendOk now db r).1 rest).1.reminders
    apply ih
    · unfold processReminder
      by_cases h1 : now < r.due_time
      · rw [if_pos h1]
        exact hx
      · by_cases h2 : sendOk r.id = true
        · rw [if_neg h1, if_pos h2]
          apply mark_preserves_other _ _ _ hx
          intro heq
          rcases h r (List.mem_cons_self _ _) heq.symm with h3 | h3
          · exact h1 h3
          · rw [h2] at h3
            cases h3
        · rw [if_neg h1, if_neg h2]
          exact hx
    · exact fun r2 hr2 heq => h r2 (List.mem_cons_of_mem _ hr2) heq

lemma processGroups_preserves (users : List Nat) (sendOk : Nat → Bool) (now : Int)
    (x : Reminder) (gs : List (Nat × List Reminder)) : ∀ db : Db, x ∈ db.reminders →
    (∀ g ∈ gs, ∀ r ∈ g.2, r.id = x.id → (now < r.due_time ∨ sendOk r.id = false)) →
    x ∈ (processGroups users sendOk now db gs).1.reminders := by
  induction gs with
  | nil =>
    intro db hx _
    exact hx
  | cons g rest ih =>
    intro db hx h
    by_cases hc : users.contains g.1 = true
    · have hstep : (processGroups users sendOk now db (g :: rest)).1 =
          (processGroups users sendOk now (processUserReminders sendOk now db g.2).1 rest).1 := by
        simp only [processGroups]
        rw [if_pos hc]
      rw [hstep]
      apply ih
      · exact processUserReminders_preserves sendOk now x g.2 db hx
          (fun r hr heq => h g (List.mem_cons_self _ _) r hr heq)
      · exact fun g2 hg2 r hr heq => h g2 (List.mem_cons_of_mem _ hg2) r hr heq
    · have hstep : (processGroups users sendOk now db (g :: rest)).1 =
          (processGroups users sendOk now db rest).1 := by
        simp only [processGroups]
        rw [if_neg hc]
      rw [hstep]
      exact ih db hx (fun g2 hg2 r hr heq => h g2 (List.mem_cons_of_mem _ hg2) r hr heq)

lemma run_batch_preserves (users : List Nat) (sendOk : Nat → Bool) (now : Int)
    (db : Db) (batch : List Reminder) (x : Reminder)
    (hx : x ∈ db.reminders)
    (h : ∀ r ∈ batch, r.id = x.id → (now < r.due_time ∨ sendOk r.id = false)) :
    x ∈ (run_reminder_batch users sendOk now db batch).1.reminders := by
  unfold run_reminder_batch
  apply processGroups_preserves users sendOk now x _ db hx
  intro g hg r hr heq
  exact h r ((groupByUser_mem batch r).mp ⟨g, hg, hr⟩) heq

/-- C7: within one dispatch tick, a due reminder whose owner exists is
marked completed exactly when its send succeeds (so mark_reminder_completed
is reached only behind a successful send); when the send fails, the failure
is logged, the reminder row is untouched and is still returned by the due
query against the resulting store (it will be retried on the next poll), and
every other due reminder of the batch whose send succeeds is still marked,
so the failure does not abort the batch. -/
theorem check_reminders_mark_after_send (users : List Nat) (sendOk : Nat → Bool)
    (db : Db) (now : Int) (r : Reminder)
    (hr : r ∈ get_due_reminders db now) (hu : users.contains r.user_id = true) :
    (Event.completedMark r.id ∈ (check_reminders users sendOk db now).2 ↔
      sendOk r.id = true) ∧
    (sendOk r.id = false →
      Event.sendFailureLogged r.id ∈ (check_reminders users sendOk db now).2 ∧
      r ∈ get_due_reminders (check_reminders users sendOk db now).1 now ∧
      ∀ r2 ∈ get_due_reminders db now, users.contains r2.user_id = true →
        sendOk r2.id = true →
        Event.completedMark r2.id ∈ (check_reminders users sendOk db now).2) := by
  obtain ⟨hmem, hflag, hdue⟩ := (mem_get_due_reminders db now r).mp hr
  have hnotearly : ¬ now < r.due_time := not_lt.mpr hdue
  unfold check_reminders
  constructor
  · rw [mem_run_batch_events _ _ _ _ _ _ (fun u h => Event.noConfusion h)]
    constructor
    · rintro ⟨r2, _, _, hev⟩
      obtain ⟨-, hs, hid⟩ := (evOne_completedMark sendOk now r2 r.id).mp hev
      rw [hid]
      exact hs
    · intro hs
      exact ⟨r, hr, hu, (evOne_completedMark sendOk now r r.id).mpr ⟨hnotearly, hs, rfl⟩⟩
  · intro hs
    refine ⟨?_, ?_, ?_⟩
    · rw [mem_run_batch_events _ _ _ _ _ _ (fun u h => Event.noConfusion h)]
      exact ⟨r, hr, hu, (evOne_sendFailureLogged sendOk now r r.id).mpr ⟨hnotearly, hs, rfl⟩⟩
    · rw [mem_get_due_reminders]
      refine ⟨?_, hflag, hdue⟩
      apply run_batch_preserves users sendOk now db _ r hmem
      intro r2 _ heq
      right
      rw [heq]
      exact hs
    · intro r2 hr2 hu2 hs2
      have hd2 := (mem_get_due_reminders db now r2).mp hr2
      rw [mem_run_batch_events _ _ _ _ _ _ (fun u h => Event.noConfusion h)]
      exact ⟨r2, hr2, hu2,
        (evOne_completedMark sendOk now r2 r2.id).mpr ⟨not_lt.mpr hd2.2.2, hs2, rfl⟩⟩

/-- C7 witness: a tick over a store with two due reminders of user 7 where
the send of id 22 fails and the send of id 21 succeeds. -/
theorem check_reminders_mark_after_send_witness :
    (⟨22, 7, "b", some (TagRef.intId 1), 2000, false⟩ : Reminder) ∈ get_due_reminders
      ⟨[], [⟨21, 7, "a", some (TagRef.intId 1), 1000, false⟩, ⟨22, 7, "b", some (TagRef.intId 1), 2000, false⟩], []⟩ 5000 ∧
    ([7].contains (7:Nat) = true) ∧
    ((Event.completedMark 22 ∈ (check_reminders [7] (fun i => i == 21)
        ⟨[], [⟨21, 7, "a", some (TagRef.intId 1), 1000, false⟩, ⟨22, 7, "b", some (TagRef.intId 1), 2000, false⟩], []⟩
        5000).2 ↔ ((fun i => i == 21) 22 = true)) ∧
      ((fun i => i == 21) 22 = false →
        Event.sendFailureLogged 22 ∈ (check_reminders [7] (fun i => i == 21)
          ⟨[], [⟨21, 7, "a", some (TagRef.intId 1), 1000, false⟩, ⟨22, 7, "b", some (TagRef.intId 1), 2000, false⟩], []⟩
          5000).2 ∧
        (⟨22, 7, "b", some (TagRef.intId 1), 2000, false⟩ : Reminder) ∈ get_due_reminders
          (check_reminders [7] (fun i => i == 21)
            ⟨[], [⟨21, 7, "a", some (TagRef.intId 1), 1000, false⟩, ⟨22, 7, "b", some (TagRef.intId 1), 2000, false⟩], []⟩
            5000).1 5000 ∧
        ∀ r2 ∈ get_due_reminders
          ⟨[], [⟨21, 7, "a", some (TagRef.intId 1), 1000, false⟩, ⟨22, 7, "b", some (TagRef.intId 1), 2000, false⟩], []⟩ 5000,
          [7].contains r2.user_id = true → (fun i => i == 21) r2.id = true →
          Event.completedMark r2.id ∈ (check_reminders [7] (fun i => i == 21)
            ⟨[], [⟨21, 7, "a", some (TagRef.intId 1), 1000, false⟩, ⟨22, 7, "b", some (TagRef.intId 1), 2000, false⟩], []⟩
            5000).2)) :=
  ⟨by decide, by decide,
    check_reminders_mark_after_send [7] (fun i => i == 21)
      ⟨[], [⟨21, 7, "a", some (TagRef.intId 1), 1000, false⟩, ⟨22, 7, "b", some (TagRef.intId 1), 2000, false⟩], []⟩
      5000 ⟨22, 7, "b", some (TagRef.intId 1), 2000, false⟩ (by decide) (by decide)⟩

/-- C8: the defensive early check of the dispatch tick.  For a batch handed
to the tick as the due-query result, any member whose due instant is
strictly after now (a clock-skew or query-boundary artifact) is not sent
(no delivered event), not marked completed (no completedMark event, and
every stored row bearing its id is preserved unchanged), raises the anomaly
alert to the operator chat, and does not stop the rest of the batch: every
other past-due member with an existing owner and a succeeding send is still
marked completed.  The id column is assumed unique across the batch, as the
primary key makes it. -/
theorem run_reminder_batch_never_early (users : List Nat) (sendOk : Nat → Bool)
    (now : Int) (db : Db) (batch : List Reminder) (r : Reminder)
    (hmem : r ∈ batch) (hu : users.contains r.user_id = true)
    (hearly : now < r.due_time)
    (hnodup : (batch.map (fun x => x.id)).Nodup) :
    Event.earlyAnomaly r.id ∈ (run_reminder_batch users sendOk now db batch).2 ∧
    Event.delivered r.id ∉ (run_reminder_batch users sendOk now db batch).2 ∧
    Event.completedMark r.id ∉ (run_reminder_batch users sendOk now db batch).2 ∧
    (∀ x ∈ db.reminders, x.id = r.id →
      x ∈ (run_reminder_batch users sendOk now db batch).1.reminders) ∧
    (∀ r2 ∈ batch, users.contains r2.user_id = true → ¬ now < r2.due_time →
      sendOk r2.id = true →
      Event.completedMark r2.id ∈ (run_reminder_batch users sendOk now db batch).2) := by
  have hinj : ∀ a ∈ batch, ∀ b ∈ batch, a.id = b.id → a = b := by
    intro a ha b hb hab
    exact List.inj_on_of_nodup_map hnodup ha hb hab
  refine ⟨?_, ?_, ?_, ?_, ?_⟩
  · rw [mem_run_batch_events _ _ _ _ _ _ (fun u h => Event.noConfusion h)]
    exact ⟨r, hmem, hu, (evOne_earlyAnomaly sendOk now r r.id).mpr ⟨hearly, rfl⟩⟩
  · rw [mem_run_batch_events _ _ _ _ _ _ (fun u h => Event.noConfusion h)]
    rintro ⟨r2, hr2, -, hev⟩
    obtain ⟨hne, -, hid⟩ := (evOne_delivered sendOk now r2 r.id).mp hev
    exact hne ((hinj r hmem r2 hr2 hid) ▸ hearly)
  · rw [mem_run_batch_events _ _ _ _ _ _ (fun u h => Event.noConfusion h)]
    rintro ⟨r2, hr2, -, hev⟩
    obtain ⟨hne, -, hid⟩ := (evOne_completedMark sendOk now r2 r.id).mp hev
    exact hne ((hinj r hmem r2 hr2 hid) ▸ hearly)
  · intro x hx hxid
    apply run_batch_preserves users sendOk now db batch x hx
    intro r2 hr2 heq
    left
    have : r2 = r := hinj r2 hr2 r hmem (heq.trans hxid)
    rw [this]
    exact hearly
  · intro r2 hr2 hu2 hne2 hs2
    rw [mem_run_batch_events _ _ _ _ _ _ (fun u h => Event.noConfusion h)]
    exact ⟨r2, hr2, hu2, (evOne_completedMark sendOk now r2 r2.id).mpr ⟨hne2, hs2, rfl⟩⟩

/-- C8 witness: a batch containing a future-dated reminder (id 31, due 9000,
now 5000) next to a past-due one (id 32); all sends succeed. -/
theorem run_reminder_batch_never_early_witness :
    (⟨31, 7, "a", some (TagRef.intId 1), 9000, false⟩ : Reminder) ∈
      [(⟨31, 7, "a", some (TagRef.intId 1), 9000, false⟩ : Reminder), ⟨32, 7, "b", some (TagRef.intId 1), 1000, false⟩] ∧
    ([7].contains (7:Nat) = true) ∧
    ((5000:Int) < 9000) ∧
    (([(⟨31, 7, "a", some (TagRef.intId 1), 9000, false⟩ : Reminder),
        ⟨32, 7, "b", some (TagRef.intId 1), 1000, false⟩].map (fun x => x.id)).Nodup) ∧
    (Event.earlyAnomaly 31 ∈ (run_reminder_batch [7] (fun _ => true) 5000
        ⟨[], [⟨31, 7, "a", some (TagRef.intId 1), 9000, false⟩, ⟨32, 7, "b", some (TagRef.intId 1), 1000, false⟩], []⟩
        [⟨31, 7, "a", some (TagRef.intId 1), 9000, false⟩, ⟨32, 7, "b", some (TagRef.intId 1), 1000, false⟩]).2 ∧
      Event.delivered 31 ∉ (run_reminder_batch [7] (fun _ => true) 5000
        ⟨[], [⟨31, 7, "a", some (TagRef.intId 1), 9000, false⟩, ⟨32, 7, "b", some (TagRef.intId 1), 1000, false⟩], []⟩
        [⟨31, 7, "a", some (TagRef.intId 1), 9000, false⟩, ⟨32, 7, "b", some (TagRef.intId 1), 1000, false⟩]).2 ∧
      Event.completedMark 31 ∉ (run_reminder_batch [7] (fun _ => true) 5000
        ⟨[], [⟨31, 7, "a", some (TagRef.intId 1), 9000, false⟩, ⟨32, 7, "b", some (TagRef.intId 1), 1000, false⟩], []⟩
        [⟨31, 7, "a", some (TagRef.intId 1), 9000, false⟩, ⟨32, 7, "b", some (TagRef.intId 1), 1000, false⟩]).2 ∧
      (∀ x ∈ (⟨[], [⟨31, 7, "a", some (TagRef.intId 1), 9000, false⟩, ⟨32, 7, "b", some (TagRef.intId 1), 1000, false⟩],
          []⟩ : Db).reminders, x.id = 31 →
        x ∈ (run_reminder_batch [7] (fun _ => true) 5000
          ⟨[], [⟨31, 7, "a", some (TagRef.intId 1), 9000, false⟩, ⟨32, 7, "b", some (TagRef.intId 1), 1000, false⟩], []⟩
          [⟨31, 7, "a", some (TagRef.intId 1), 9000, false⟩, ⟨32, 7, "b", some (TagRef.intId 1), 1000, false⟩]).1.reminders) ∧
      (∀ r2 ∈ [(⟨31, 7, "a", some (TagRef.intId 1), 9000, false⟩ : Reminder),
          ⟨32, 7, "b", some (TagRef.intId 1), 1000, false⟩],
        [7].contains r2.user_id = true → ¬ (5000:Int) < r2.due_time →
        (fun _ => true) r2.id = true →
        Event.completedMark r2.id ∈ (run_reminder_batch [7] (fun _ => true) 5000
          ⟨[], [⟨31, 7, "a", some (TagRef.intId 1), 9000, false⟩, ⟨32, 7, "b", some (TagRef.intId 1), 1000, false⟩], []⟩
          [⟨31, 7, "a", some (TagRef.intId 1), 9000, false⟩, ⟨32, 7, "b", some (TagRef.intId 1), 1000, false⟩]).2)) :=
  ⟨by decide, by decide, by decide, by decide,
    run_reminder_batch_never_early [7] (fun _ => true) 5000
      ⟨[], [⟨31, 7, "a", some (TagRef.intId 1), 9000, false⟩, ⟨32, 7, "b", some (TagRef.intId 1), 1000, false⟩], []⟩
      [⟨31, 7, "a", some (TagRef.intId 1), 9000, false⟩, ⟨32, 7, "b", some (TagRef.intId 1), 1000, false⟩]
      ⟨31, 7, "a", some (TagRef.intId 1), 9000, false⟩ (by decide) (by decide) (by decide) (by decide)⟩

/-- The hour field of a python aware datetime in the fixed server timezone,
for a civil time expressed as nonnegative seconds. -/
def hourOf (t : Nat) : Nat := t / 3600 % 24

/-- The python weekday() ordinal (0 = Monday), with the day origin of the
civil second count aligned to a Monday. -/
def weekdayOf (t : Nat) : Nat := t / 86400 % 7

/-- main.py _get_reschedule_delta, evening branch: delta = 30 minutes; while
(now + delta).hour <= 19: delta += 1 hour.  The python loop is unbounded;
25 iterations always suffice because the hour value cycles through all 24
residues as whole hours are added, which evening_delta_least makes precise,
so the bounded runner returns exactly the value of the python loop. -/
def eveningGo (now : Nat) : Nat → Nat → Nat
  | delta, 0 => delta
  | delta, fuel + 1 =>
      if hourOf (now + delta) ≤ 19 then eveningGo now (delta + 3600) fuel else delta

/-- main.py _get_reschedule_delta, weekends branch: delta = 1 day; while
(now + delta).weekday() <= 4: delta += 1 day; 8 iterations always suffice. -/
def weekendGo (now : Nat) : Nat → Nat → Nat
  | delta, 0 => delta
  | delta, fuel + 1 =>
      if weekdayOf (now + delta) ≤ 4 then weekendGo now (delta + 86400) fuel else delta

/-- main.py _get_reschedule_delta: the fixed symbol table, the two search
loops anchored at now, and the default 30-minute fallthrough; durations in
seconds. -/
def get_reschedule_delta (now : Nat) (reschedule_type : String) : Nat :=
  if reschedule_type == "hour" then 3600
  else if reschedule_type == "8hours" then 8 * 3600
  else if reschedule_type == "day" then 86400
  else if reschedule_type == "2days" then 2 * 86400
  else if reschedule_type == "week" then 7 * 86400
  else if reschedule_type == "month" then 31 * 86400
  else if reschedule_type == "3months" then 93 * 86400
  else if reschedule_type == "evening" then eveningGo now 1800 25
  else if reschedule_type == "weekends" then weekendGo now 86400 8
  else 1800

lemma hourOf_add_mul (t k : Nat) : hourOf (t + k * 3600) = (t / 3600 + k) % 24 := by
  unfold hourOf
  congr 1
  omega

lemma evening_exists_hit (now : Nat) :
    ∃ k, k < 24 ∧ 19 < hourOf (now + (1800 + k * 3600)) := by
  refine ⟨(44 - (now + 1800) / 3600 % 24) % 24, by omega, ?_⟩
  have hassoc : now + (1800 + (44 - (now + 1800) / 3600 % 24) % 24 * 3600) =
      (now + 1800) + (44 - (now + 1800) / 3600 % 24) % 24 * 3600 := by omega
  rw [hassoc, hourOf_add_mul]
  omega

lemma eveningGo_spec (now : Nat) : ∀ (k fuel delta : Nat), k < fuel →
    (∀ j < k, hourOf (now + (delta + j * 3600)) ≤ 19) →
    19 < hourOf (now + (delta + k * 3600)) →
    eveningGo now delta fuel = delta + k * 3600 := by
  intro k
  induction k with
  | zero =>
    intro fuel delta hf hall hk
    cases fuel with
    | zero => omega
    | succ f =>
      have hcond : ¬ hourOf (now + delta) ≤ 19 := by
        have hk2 : 19 < hourOf (now + delta) := by
          have e : now + (delta + 0 * 3600) = now + delta := by omega
          rw [e] at hk
          exact hk
        omega
      show (if hourOf (now + delta) ≤ 19 then eveningGo now (delta + 3600) f else delta) =
        delta + 0 * 3600
      rw [if_neg hcond]
      omega
  | succ k ih =>
    intro fuel delta hf hall hk
    cases fuel with
    | zero => omega
    | succ f =>
      have h0 : hourOf (now + delta) ≤ 19 := by
        have := hall 0 (by omega)
        have e : now + (delta + 0 * 3600) = now + delta := by omega
        rw [e] at this
        exact this
      show (if hourOf (now + delta) ≤ 19 then eveningGo now (delta + 3600) f else delta) =
        delta + (k + 1) * 3600
      rw [if_pos h0]
      have hrec := ih f (delta + 3600) (by omega) ?_ ?_
      · rw [hrec]
        omega
      · intro j hj
        have e : now + (delta + 3600 + j * 3600) = now + (delta + (j + 1) * 3600) := by
          omega
        rw [e]
        exact hall (j + 1) (by omega)
      · have e : now + (delta + 3600 + k * 3600) = now + (delta + (k + 1) * 3600) := by
          omega
        rw [e]
        exact hk

/-- C4: for every call instant now, the evening branch of
get_reschedule_delta returns the smallest offset of the form
30 minutes + k whole hours whose landing hour is strictly greater than 19;
in particular the python while-loop terminates for every now, since such a
k always exists (the hour cycles through all 24 values), and the returned
offset satisfies the loop postcondition with all earlier candidates
rejected by the loop guard. -/
theorem evening_delta_least (now : Nat) :
    ∃ k, get_reschedule_delta now "evening" = 1800 + k * 3600 ∧
      19 < hourOf (now + (1800 + k * 3600)) ∧
      ∀ j < k, hourOf (now + (1800 + j * 3600)) ≤ 19 := by
  have hex : ∃ k, 19 < hourOf (now + (1800 + k * 3600)) := by
    obtain ⟨k, -, hk⟩ := evening_exists_hit now
    exact ⟨k, hk⟩
  refine ⟨Nat.find hex, ?_, Nat.find_spec hex, fun j hj => ?_⟩
  · have hred : get_reschedule_delta now "evening" = eveningGo now 1800 25 := rfl
    rw [hred]
    have hb : Nat.find hex < 25 := by
      obtain ⟨m, hm24, hm⟩ := evening_exists_hit now
      have := Nat.find_min' hex hm
      omega
    have := eveningGo_spec now (Nat.find hex) 25 1800 hb
      (fun j hj => by
        have := Nat.find_min hex hj
        omega)
      (Nat.find_spec hex)
    exact this
  · have := Nat.find_min hex hj
    omega

/-- python str.lower(): lowercase every character of the line. -/
def lowerStr (s : String) : String := ⟨s.data.map Char.toLower⟩

/-- Whether the second character list is a leading segment of the first. -/
def startsWithChars : List Char → List Char → Bool
  | _, [] => true
  | [], _ :: _ => false
  | a :: as, b :: bs => a == b && startsWithChars as bs

/-- python substring membership (needle in haystack) over character lists. -/
def containsChars : List Char → List Char → Bool
  | [], needle => needle.isEmpty
  | c :: rest, needle => startsWithChars (c :: rest) needle || containsChars rest needle

/-- python substring membership over strings. -/
def strContainsSub (hay needle : String) : Bool :=
  containsChars hay.data needle.data

/-- The matching predicate of main.py _check_logs_for_errors: the lowercased
line contains error, exception or fail. -/
def lineMatchesError (line : String) : Bool :=
  strContainsSub (lowerStr line) "error" ||
    strContainsSub (lowerStr line) "exception" ||
    strContainsSub (lowerStr line) "fail"

/-- python line[:1000]. -/
def strTake (s : String) (n : Nat) : String := ⟨s.data.take n⟩

/-- The overflow marker text added when the set already has more than 10
entries. -/
def overflowMarker : String := "... и другие ошибки (превышен лимит вывода)"

/-- python set.add on the found_errors set, modelled as an insertion-ordered
duplicate-free list; membership and cardinality agree with the python set. -/
def setInsert (s : List String) (x : String) : List String :=
  if s.contains x then s else s ++ [x]

/-- main.py _check_logs_for_errors, the scan loop over the lines past the
remembered read position: a matching line is added truncated to 1000
characters, unless the set already holds more than 10 entries, in which case
the overflow marker is added and the loop breaks. -/
def collectLogErrors : List String → List String → List String
  | acc, [] => acc
  | acc, line :: rest =>
      if lineMatchesError line then
        if 10 < acc.length then setInsert acc overflowMarker
        else collectLogErrors (setInsert acc (strTake line 1000)) rest
      else collectLogErrors acc rest

/-- Twelve distinct matching log lines for the C9 scenario. -/
def c9Lines : List String :=
  ["error1", "error2", "error3", "error4", "error5", "error6", "error7",
   "error8", "error9", "error10", "error11", "error12"]

/-- C9 counterexample: on twelve distinct matching lines the loop collects
eleven lines and then adds the overflow marker, so the resulting entry set
has size twelve, not eleven as claimed; the marker is present. -/
theorem collectLogErrors_size_counterexample :
    (collectLogErrors [] c9Lines).length = 12 ∧
    overflowMarker ∈ collectLogErrors [] c9Lines ∧
    (collectLogErrors [] c9Lines).length ≠ 11 := by
  refine ⟨by decide, by decide, by decide⟩

lemma setInsert_of_not_mem (s : List String) (x : String) (h : x ∉ s) :
    setInsert s x = s ++ [x] := by
  unfold setInsert
  rw [if_neg]
  intro hc
  exact h (by simpa using hc)

lemma collectLogErrors_spec (lines : List String) : ∀ acc : List String,
    (∀ l ∈ lines, lineMatchesError l = true) →
    (∀ l ∈ lines, strTake l 1000 ∉ acc) →
    ((lines.map (fun l => strTake l 1000)).Nodup) →
    (overflowMarker ∉ acc) →
    (overflowMarker ∉ lines.map (fun l => strTake l 1000)) →
    acc.length ≤ 11 →
    collectLogErrors acc lines =
      (if lines.length + acc.length ≤ 11 then
        acc ++ lines.map (fun l => strTake l 1000)
      else acc ++ (lines.map (fun l => strTake l 1000)).take (11 - acc.length) ++
        [overflowMarker]) := by
  induction lines with
  | nil =>
    intro acc _ _ _ _ _ hlen
    rw [if_pos (by simpa using hlen)]
    simp [collectLogErrors]
  | cons line rest ih =>
    intro acc hmatch hfresh hnodup hmacc hmlines hlen
    have hm : lineMatchesError line = true := hmatch line (List.mem_cons_self _ _)
    show (if lineMatchesError line = true then
        (if 10 < acc.length then setInsert acc overflowMarker
         else collectLogErrors (setInsert acc (strTake line 1000)) rest)
      else collectLogErrors acc rest) = _
    rw [if_pos hm]
    rw [List.map_cons] at hnodup hmlines ⊢
    by_cases hbig : 10 < acc.length
    · rw [if_pos hbig, setInsert_of_not_mem acc overflowMarker hmacc]
      have hc : ¬ (rest.length + 1 + acc.length ≤ 11) := by omega
      rw [List.length_cons, if_neg hc]
      have h0 : 11 - acc.length = 0 := by omega
      rw [h0, List.take_zero, List.append_nil]
    · rw [if_neg hbig]
      have hfr : strTake line 1000 ∉ acc := hfresh line (List.mem_cons_self _ _)
      rw [setInsert_of_not_mem acc (strTake line 1000) hfr]
      have hnodup2 := List.nodup_cons.mp hnodup
      have hrec := ih (acc ++ [strTake line 1000])
        (fun l hl => hmatch l (List.mem_cons_of_mem _ hl))
        (fun l hl => by
          rw [List.mem_append]
          rintro (hin | hin)
          · exact hfresh l (List.mem_cons_of_mem _ hl) hin
          · exact hnodup2.1 ((List.mem_singleton.mp hin) ▸ List.mem_map_of_mem _ hl))
        hnodup2.2
        (by
          rw [List.mem_append]
          rintro (hin | hin)
          · exact hmacc hin
          · exact hmlines (List.mem_cons.mpr (Or.inl (List.mem_singleton.mp hin))))
        (fun hin => hmlines (List.mem_cons.mpr (Or.inr hin)))
        (by rw [List.length_append]; simpa using by omega)
      rw [hrec, List.length_append, List.length_singleton, List.length_cons]
      by_cases hsum : rest.length + 1 + acc.length ≤ 11
      · rw [if_pos (by omega), if_pos hsum]
        simp
      · rw [if_neg (by omega), if_neg hsum]
        have hsucc : 11 - acc.length = (10 - acc.length) + 1 := by omega
        have hsub : 11 - (acc.length + 1) = 10 - acc.length := by omega
        rw [hsucc, hsub, List.take_succ_cons]
        simp

/-- C9 amended: when the scan meets twelve distinct matching lines (none
equal to the marker after truncation), the batched entry set has size
exactly twelve: the first eleven collected lines plus the overflow marker,
and the marker is present, never silently dropped. -/
theorem collectLogErrors_overflow_marker (lines : List String)
    (hlen : lines.length = 12)
    (hmatch : ∀ l ∈ lines, lineMatchesError l = true)
    (hnodup : (lines.map (fun l => strTake l 1000)).Nodup)
    (hmarker : overflowMarker ∉ lines.map (fun l => strTake l 1000)) :
    collectLogErrors [] lines =
      (lines.map (fun l => strTake l 1000)).take 11 ++ [overflowMarker] ∧
    (collectLogErrors [] lines).length = 12 ∧
    overflowMarker ∈ collectLogErrors [] lines := by
  have hspec := collectLogErrors_spec lines [] hmatch (by simp) hnodup (by simp)
    hmarker (by simp)
  rw [List.length_nil, if_neg (by omega)] at hspec
  simp only [List.nil_append] at hspec
  refine ⟨hspec, ?_, ?_⟩
  · rw [hspec, List.length_append, List.length_take, List.length_map, hlen]
    simp
  · rw [hspec]
    exact List.mem_append_right _ (List.mem_singleton.mpr rfl)

/-- C9 witness: the amended theorem applied to the twelve concrete lines. -/
theorem collectLogErrors_overflow_marker_witness :
    c9Lines.length = 12 ∧
    (collectLogErrors [] c9Lines =
      (c9Lines.map (fun l => strTake l 1000)).take 11 ++ [overflowMarker] ∧
    (collectLogErrors [] c9Lines).length = 12 ∧
    overflowMarker ∈ collectLogErrors [] c9Lines) :=
  ⟨by decide, collectLogErrors_overflow_marker c9Lines (by decide) (by decide)
    (by decide) (by decide)⟩

/-- C4 witness: the theorem instantiated at 20:30 local time (second 73800
of a day-aligned count), together with the concrete evaluation: the loop
exits at once because hour(now + 30 minutes) = 21 > 19, so the offset is the
bare 30 minutes. -/
theorem evening_delta_least_witness :
    (∃ k, get_reschedule_delta 73800 "evening" = 1800 + k * 3600 ∧
      19 < hourOf (73800 + (1800 + k * 3600)) ∧
      ∀ j < k, hourOf (73800 + (1800 + j * 3600)) ≤ 19) ∧
    get_reschedule_delta 73800 "evening" = 1800 :=
  ⟨evening_delta_least 73800, by decide⟩

/-- C5 witness: the theorem instantiated at a concrete store holding one
completed, one future and one due reminder, plus the concrete evaluation of
the query. -/
theorem get_due_reminders_spec_witness :
    ((⟨41, 7, "a", some (TagRef.intId 1), 1000, false⟩ : Reminder) ∈ get_due_reminders
        ⟨[], [⟨41, 7, "a", some (TagRef.intId 1), 1000, false⟩, ⟨42, 7, "b", some (TagRef.intId 1), 1000, true⟩,
          ⟨43, 7, "c", some (TagRef.intId 1), 9000, false⟩], []⟩ 5000 ↔
      (⟨41, 7, "a", some (TagRef.intId 1), 1000, false⟩ : Reminder) ∈
        (⟨[], [⟨41, 7, "a", some (TagRef.intId 1), 1000, false⟩, ⟨42, 7, "b", some (TagRef.intId 1), 1000, true⟩,
          ⟨43, 7, "c", some (TagRef.intId 1), 9000, false⟩], []⟩ : Db).reminders ∧
      (⟨41, 7, "a", some (TagRef.intId 1), 1000, false⟩ : Reminder).is_completed = false ∧
      (⟨41, 7, "a", some (TagRef.intId 1), 1000, false⟩ : Reminder).due_time ≤ 5000) ∧
    get_due_reminders
        ⟨[], [⟨41, 7, "a", some (TagRef.intId 1), 1000, false⟩, ⟨42, 7, "b", some (TagRef.intId 1), 1000, true⟩,
          ⟨43, 7, "c", some (TagRef.intId 1), 9000, false⟩], []⟩ 5000 =
      [⟨41, 7, "a", some (TagRef.intId 1), 1000, false⟩] :=
  ⟨(get_due_reminders_spec
      ⟨[], [⟨41, 7, "a", some (TagRef.intId 1), 1000, false⟩, ⟨42, 7, "b", some (TagRef.intId 1), 1000, true⟩,
        ⟨43, 7, "c", some (TagRef.intId 1), 9000, false⟩], []⟩ 5000 ⟨41, 7, "a", some (TagRef.intId 1), 1000, false⟩).1,
   by decide⟩

end AiReminder
